import Mathlib

/-!
Verification of the NUFAB inventory-management scraper (`nucore_client.py`,
`main.py`).  The browser boundary is cut at the page: a page is the list of
its `table` elements in document order, each table its header-cell texts and
body rows (cell texts), exactly the data the Playwright calls return.  The
Python string operations used by the code (`strip`, `lower`, `split`,
`startswith`, substring `in`) are embedded on the `List Char` model.
-/

/-- Python `s.strip()`: drop leading and trailing whitespace. -/
def pyStrip (s : String) : String :=
  ⟨((s.data.dropWhile Char.isWhitespace).reverse.dropWhile Char.isWhitespace).reverse⟩

/-- Python `s.lower()`: per-character lower-casing. -/
def pyLower (s : String) : String :=
  ⟨s.data.map Char.toLower⟩

/-- List-level check that `pre` is an initial segment of `l`. -/
def listIsInit : List Char → List Char → Bool
  | [], _ => true
  | _ :: _, [] => false
  | a :: as, b :: bs => a == b && listIsInit as bs

/-- Python `s.startswith(pre)`. -/
def pyStartsWith (s pre : String) : Bool :=
  listIsInit pre.data s.data

/-- List-level contiguous-substring check, scanning left to right. -/
def listHasInfix (needle : List Char) : List Char → Bool
  | [] => listIsInit needle []
  | c :: cs => listIsInit needle (c :: cs) || listHasInfix needle cs

/-- Python `needle in hay` on strings: contiguous substring containment. -/
def strContains (hay needle : String) : Bool :=
  listHasInfix needle.data hay.data

/-- Worker for Python `s.split()`: split on whitespace runs, dropping empties.
`acc` holds the current token reversed. -/
def splitWsAux : List Char → List Char → List String
  | [], acc => if acc.isEmpty then [] else [⟨acc.reverse⟩]
  | c :: rest, acc =>
    if c.isWhitespace then
      if acc.isEmpty then splitWsAux rest []
      else ⟨acc.reverse⟩ :: splitWsAux rest []
    else splitWsAux rest (c :: acc)

/-- Python `s.split()` with no separator argument. -/
def pySplit (s : String) : List String :=
  splitWsAux s.data []

/-- Python `s.strip().split()[0]` as used for the id cells: `none` models the
`IndexError` raised when the cell has no token. -/
def pyFirstToken (s : String) : Option String :=
  (pySplit (pyStrip s)).head?

/-- `h.strip().lower()`, the header normalisation applied throughout. -/
def stripLower (s : String) : String :=
  pyLower (pyStrip s)

/-- One `table` element: `thead tr th` texts and `tbody tr td` texts. -/
structure HtmlTable where
  headers : List String
  body : List (List String)
deriving DecidableEq, Repr

/-- `wanted_headers = ["order", "order detail", "product", "status"]`. -/
def wantedHeaders : List String :=
  ["order", "order detail", "product", "status"]

/-- The qualification test of the table-scan loop:
`all(any(w in h for h in hdrs) for w in wanted_headers)` where
`hdrs = [h.strip().lower() for h in ths]`. -/
def tableQualifies (t : HtmlTable) : Bool :=
  let hdrs := t.headers.map stripLower
  wantedHeaders.all (fun w => hdrs.any (fun h => strContains h w))

/-- The `for i in range(table_count): ... break` scan: first qualifying table
in document order, `none` when no table qualifies. -/
def locateTable (tables : List HtmlTable) : Option HtmlTable :=
  tables.find? tableQualifies

/-- Python dict assignment `m[k] = v`: an existing key keeps its insertion
position and gets the new value, a new key is appended. -/
def dictInsert (m : List (String × Nat)) (k : String) (v : Nat) : List (String × Nat) :=
  if m.any (fun p => decide (p.1 = k)) then
    m.map (fun p => if p.1 = k then (k, v) else p)
  else
    m ++ [(k, v)]

/-- Worker for the dict comprehension, `i` the enumeration index. -/
def buildHeaderMapAux : Nat → List String → List (String × Nat) → List (String × Nat)
  | _, [], m => m
  | i, h :: rest, m => buildHeaderMapAux (i + 1) rest (dictInsert m (stripLower h) i)

/-- `header_map = {h.strip().lower(): idx for idx, h in enumerate(ths)}`. -/
def buildHeaderMap (ths : List String) : List (String × Nat) :=
  buildHeaderMapAux 0 ths []

/-- `col_idx(name)`: first key of `header_map` (insertion order) containing
`name.lower()` as a substring, `None` when no key matches. -/
def col_idx (m : List (String × Nat)) (name : String) : Option Nat :=
  (m.find? (fun p => strContains p.1 (pyLower name))).map Prod.snd

/-- The four resolved physical column indices. -/
structure TableSchema where
  idx_order : Nat
  idx_order_detail : Nat
  idx_product : Nat
  idx_status : Nat
deriving DecidableEq, Repr

/-- The four `col_idx` calls plus the `if None in (...)` guard. -/
def resolveSchema (ths : List String) : Option TableSchema :=
  let m := buildHeaderMap ths
  match col_idx m "order", col_idx m "order detail",
        col_idx m "product", col_idx m "status" with
  | some a, some b, some c, some d => some ⟨a, b, c, d⟩
  | _, _, _, _ => none

/-- One appended row dict: `{"order": ..., "order_detail": ..., "product": ...,
"status": ...}`. -/
structure OrderRecord where
  order : String
  order_detail : String
  product : String
  status : String
deriving DecidableEq, Repr

/-- The key/value pairs of the emitted Python dict, in literal order. -/
def toDict (r : OrderRecord) : List (String × String) :=
  [("order", r.order), ("order_detail", r.order_detail),
   ("product", r.product), ("status", r.status)]

/-- The `try/except` around the two id cells.  The `try` needs both cells
present and both tokenisations to succeed; on any failure the `except` block
re-reads both cells raw, itself raising (`.error`) when a cell is missing. -/
def extractIds (tds : List String) (iOrd iDet : Nat) : Except Unit (String × String) :=
  match tds.get? iOrd, tds.get? iDet with
  | some c1, some c2 =>
    match pyFirstToken c1, pyFirstToken c2 with
    | some t1, some t2 => Except.ok (t1, t2)
    | _, _ => Except.ok (pyStrip c1, pyStrip c2)
  | _, _ => Except.error ()

/-- One iteration of the body-row loop: `.ok none` models `continue` (row
skipped or filtered), `.error` an uncaught `IndexError`. -/
def extractRow (sch : TableSchema) (tds : List String) : Except Unit (Option OrderRecord) :=
  if tds.isEmpty then Except.ok none
  else
    match tds.get? sch.idx_status with
    | none => Except.error ()
    | some cs =>
      let status_text := pyStrip cs
      if pyStartsWith (pyLower status_text) "new" then
        match extractIds tds sch.idx_order sch.idx_order_detail with
        | Except.error e => Except.error e
        | Except.ok (oid, odid) =>
          match tds.get? sch.idx_product with
          | none => Except.error ()
          | some cp =>
            Except.ok (some ⟨oid, odid, pyStrip cp, status_text⟩)
      else Except.ok none

/-- The whole body-row loop; an uncaught row error aborts the function. -/
def extractRows (sch : TableSchema) : List (List String) → Except Unit (List OrderRecord)
  | [] => Except.ok []
  | tds :: rest =>
    match extractRow sch tds with
    | Except.error e => Except.error e
    | Except.ok none => extractRows sch rest
    | Except.ok (some r) =>
      match extractRows sch rest with
      | Except.error e => Except.error e
      | Except.ok rs => Except.ok (r :: rs)

/-- `fetch_new_orders`, cut at the page: locate the table, resolve the
schema (each miss returns the empty list), then run the row loop. -/
def fetch_new_orders (tables : List HtmlTable) : Except Unit (List OrderRecord) :=
  match locateTable tables with
  | none => Except.ok []
  | some t =>
    match resolveSchema t.headers with
    | none => Except.ok []
    | some sch => extractRows sch t.body

/-- Row has a cell at each of the four resolved indices. -/
def rowCovers (sch : TableSchema) (tds : List String) : Bool :=
  decide (sch.idx_order < tds.length) && decide (sch.idx_order_detail < tds.length) &&
  decide (sch.idx_product < tds.length) && decide (sch.idx_status < tds.length)

/-- The status filter applied to a (covered) row. -/
def rowStatusNew (sch : TableSchema) (tds : List String) : Bool :=
  pyStartsWith (pyLower (pyStrip (tds.getD sch.idx_status ""))) "new"

/-- The record a covered row produces when it passes the filter. -/
def mkRecord (sch : TableSchema) (tds : List String) : OrderRecord :=
  let c1 := tds.getD sch.idx_order ""
  let c2 := tds.getD sch.idx_order_detail ""
  let ids :=
    match pyFirstToken c1, pyFirstToken c2 with
    | some t1, some t2 => (t1, t2)
    | _, _ => (pyStrip c1, pyStrip c2)
  ⟨ids.1, ids.2, pyStrip (tds.getD sch.idx_product ""),
   pyStrip (tds.getD sch.idx_status "")⟩

/-- The record list as Python dicts, `none` when the call raised. -/
def fetchDicts (tables : List HtmlTable) : Option (List (List (String × String))) :=
  match fetch_new_orders tables with
  | Except.ok l => some (l.map toDict)
  | Except.error _ => none

/-- The spec's concrete scenario page. -/
def scenarioPage : List HtmlTable :=
  [⟨["Order", "Order Detail", "Product", "Status"],
    [["1001 (x)", "2001 (y)", "Widget A", "New"],
     ["1002", "2002", "Widget B", "Complete"]]⟩]

/-!
Login-flow models.  Each Playwright call that can raise is an `Except`-valued
outcome recorded in an environment structure; `PWError.timeout` stands for
`playwright TimeoutError`, `PWError.other` for any other exception, so the
code's `except PWTimeoutError` / `except Exception` clauses are distinguishable.
-/

/-- Outcome class of a raising Playwright call. -/
inductive PWError where
  | timeout
  | other
deriving DecidableEq, Repr

instance {ε α : Type} [DecidableEq ε] [DecidableEq α] : DecidableEq (Except ε α) := fun x y =>
  match x, y with
  | Except.ok a, Except.ok b =>
    if h : a = b then isTrue (congrArg Except.ok h)
    else isFalse (fun hh => h (Except.ok.inj hh))
  | Except.error a, Except.error b =>
    if h : a = b then isTrue (congrArg Except.error h)
    else isFalse (fun hh => h (Except.error.inj hh))
  | Except.ok _, Except.error _ => isFalse (fun hh => Except.noConfusion hh)
  | Except.error _, Except.ok _ => isFalse (fun hh => Except.noConfusion hh)

/-- Outcomes of the individual awaits inside `microsoft_aad_login`. -/
structure AadEnv where
  loginfmtVisible : Bool
  fillUser : Except PWError Unit
  clickNext : Except PWError Unit
  passwdWait : Except PWError Unit
  fillPass : Except PWError Unit
  clickSignIn : Except PWError Unit
  networkIdle : Except PWError Unit
deriving DecidableEq, Repr

/-- Body of the outer `try` of `microsoft_aad_login`: the "stay signed in"
block swallows all its own errors and is elided; the network-idle wait
swallows only `TimeoutError`. -/
def aadBody (e : AadEnv) : Except PWError Bool :=
  if e.loginfmtVisible then do
    let _ ← e.fillUser
    let _ ← e.clickNext
    let _ ← e.passwdWait
    let _ ← e.fillPass
    let _ ← e.clickSignIn
    match e.networkIdle with
    | Except.ok _ => pure true
    | Except.error PWError.timeout => pure true
    | Except.error PWError.other => throw PWError.other
  else
    pure false

/-- `microsoft_aad_login`: the outer `except Exception` turns every raise
into `return False`. -/
def microsoft_aad_login (e : AadEnv) : Bool :=
  match aadBody e with
  | Except.ok b => b
  | Except.error _ => false

/-- Outcomes of the awaits inside `generic_username_password_login`, which
has no enclosing `try`, so its raises propagate. -/
structure GenEnv where
  userFound : Bool
  passFound : Bool
  fillUser : Except PWError Unit
  fillPass : Except PWError Unit
  submitFound : Bool
  submitClick : Except PWError Unit
  pressEnter : Except PWError Unit
  networkIdle : Except PWError Unit
deriving DecidableEq, Repr

/-- `generic_username_password_login`. -/
def generic_username_password_login (e : GenEnv) : Except PWError Bool :=
  if !e.userFound || !e.passFound then Except.ok false
  else do
    let _ ← e.fillUser
    let _ ← e.fillPass
    let _ ← (if e.submitFound then e.submitClick else e.pressEnter)
    match e.networkIdle with
    | Except.ok _ => pure true
    | Except.error PWError.timeout => pure true
    | Except.error PWError.other => throw PWError.other

/-- State after the SSO entry probe: the current URL plus the two strategy
environments. -/
structure LoginEnv where
  url : String
  aad : AadEnv
  gen : GenEnv
deriving DecidableEq, Repr

/-- Which branches ran and what they reported. -/
structure DispatchTrace where
  aadAttempted : Bool
  aadHandled : Bool
  genAttempted : Bool
  genHandled : Bool
deriving DecidableEq, Repr

/-- The strategy dispatch of `login_and_open_orders` (and of `main.run`):
`aad_done = False; if "login.microsoftonline.com" in page.url: aad_done =
microsoft_aad_login(...)`; then `if not aad_done:` run the generic form. -/
def loginDispatch (env : LoginEnv) : Except PWError DispatchTrace :=
  let aadAttempted := strContains env.url "login.microsoftonline.com"
  let aadDone := aadAttempted && microsoft_aad_login env.aad
  if aadDone then
    Except.ok ⟨aadAttempted, true, false, false⟩
  else
    match generic_username_password_login env.gen with
    | Except.error e => Except.error e
    | Except.ok g => Except.ok ⟨aadAttempted, false, true, g⟩

/-- One Duo push-button probe: `is_visible()` then `click()`, both inside a
per-selector `try/except continue`. -/
structure SelAttempt where
  visible : Except PWError Bool
  click : Except PWError Unit
deriving DecidableEq, Repr

/-- Outcomes of the awaits inside `handle_duo_iframe_if_present`. -/
structure DuoEnv where
  frameWait : Except PWError Unit
  duoFrame : Option (List SelAttempt)
  waitRemoval : Except PWError Unit
deriving DecidableEq, Repr

/-- The `for s in [...]: try ... except: continue` push-button loop; every
raise is caught, so the loop is total. -/
def tryClickLoop : List SelAttempt → Unit
  | [] => ()
  | s :: rest =>
    match s.visible with
    | Except.error _ => tryClickLoop rest
    | Except.ok false => tryClickLoop rest
    | Except.ok true =>
      match s.click with
      | Except.error _ => tryClickLoop rest
      | Except.ok _ => ()

/-- `handle_duo_iframe_if_present`: a failed frame wait means "no Duo" and
returns; the removal wait swallows only `TimeoutError`. -/
def handle_duo_iframe_if_present (env : DuoEnv) : Except PWError Unit :=
  match env.frameWait with
  | Except.error _ => Except.ok ()
  | Except.ok _ =>
    let _ :=
      match env.duoFrame with
      | some sels => tryClickLoop sels
      | none => ()
    match env.waitRemoval with
    | Except.ok _ => Except.ok ()
    | Except.error PWError.timeout => Except.ok ()
    | Except.error PWError.other => Except.error PWError.other

/-- The statement of `login_and_open_orders` immediately after the Duo
handler: `await page.goto(target_url, ...)`.  `.ok true` records that the
target-page navigation was reached. -/
def proceedsToTarget (duoResult : Except PWError Unit) : Except PWError Bool :=
  match duoResult with
  | Except.ok _ => Except.ok true
  | Except.error e => Except.error e

/-!
Resource-lifecycle model of `fetch_new_orders`'s `try/finally`.  The
`finally` wraps the three closes in a single `try/except Exception: pass`,
so a raising close skips the ones after it.
-/

/-- Whether a close call raises. -/
inductive CloseBehavior where
  | succeeds
  | raises
deriving DecidableEq, Repr

/-- One run of `fetch_new_orders` seen at the resource level: the login
either returns the (browser, context, page) triple or raises while the
locals are still `None`; the parse body then returns or raises. -/
structure FetchEnv where
  login : Except PWError Unit
  parse : Except PWError (List OrderRecord)
  pageClose : CloseBehavior
  contextClose : CloseBehavior
  browserClose : CloseBehavior
deriving Repr

/-- Result and which resources ended up closed. -/
structure FetchRun where
  result : Except PWError (List OrderRecord)
  pageClosed : Bool
  contextClosed : Bool
  browserClosed : Bool
deriving Repr

/-- The `finally` block: when the triple was assigned, close page, context,
browser in order inside one `try`; the first raise aborts the remaining
closes (and is swallowed). -/
def finallyCloses (env : FetchEnv) (haveResources : Bool) : Bool × Bool × Bool :=
  if haveResources then
    match env.pageClose with
    | CloseBehavior.raises => (false, false, false)
    | CloseBehavior.succeeds =>
      match env.contextClose with
      | CloseBehavior.raises => (true, false, false)
      | CloseBehavior.succeeds =>
        match env.browserClose with
        | CloseBehavior.raises => (true, true, false)
        | CloseBehavior.succeeds => (true, true, true)
  else (false, false, false)

/-- `fetch_new_orders` at the resource level: the `finally` runs on both the
return and the raise path; it never changes the propagated result. -/
def fetch_run (env : FetchEnv) : FetchRun :=
  match env.login with
  | Except.error e =>
    let c := finallyCloses env false
    ⟨Except.error e, c.1, c.2.1, c.2.2⟩
  | Except.ok _ =>
    let c := finallyCloses env true
    ⟨env.parse, c.1, c.2.1, c.2.2⟩


/-!
Helper lemmas.
-/

theorem find?_of_exists_mem {α : Type} (p : α → Bool) (l : List α)
    (h : ∃ x ∈ l, p x = true) : ∃ a, l.find? p = some a ∧ p a = true := by
  induction l with
  | nil => simp at h
  | cons x xs ih =>
    cases hx : p x with
    | true => exact ⟨x, by simp [List.find?_cons, hx], hx⟩
    | false =>
      obtain ⟨y, hy, hpy⟩ := h
      rcases List.mem_cons.mp hy with rfl | hmem
      · rw [hx] at hpy; exact absurd hpy (by simp)
      · obtain ⟨a, ha, hpa⟩ := ih ⟨y, hmem, hpy⟩
        exact ⟨a, by simp [List.find?_cons, hx, ha], hpa⟩

theorem find?_first_index {α : Type} (p : α → Bool) :
    ∀ (l : List α) (i : Nat) (a : α), l.get? i = some a → p a = true →
      ∃ j b, j ≤ i ∧ l.get? j = some b ∧ p b = true ∧
        (∀ k c, k < j → l.get? k = some c → p c = false) ∧
        l.find? p = some b := by
  intro l
  induction l with
  | nil => intro i a h; simp at h
  | cons x xs ih =>
    intro i a hget hpa
    cases hx : p x with
    | true =>
      refine ⟨0, x, Nat.zero_le i, rfl, hx, ?_, ?_⟩
      · intro k c hk _; exact absurd hk (Nat.not_lt_zero k)
      · simp [List.find?_cons, hx]
    | false =>
      cases i with
      | zero =>
        simp only [List.get?] at hget
        cases hget
        rw [hx] at hpa
        exact absurd hpa (by simp)
      | succ i' =>
        simp only [List.get?] at hget
        obtain ⟨j, b, hj, hgb, hpb, hfirst, hfind⟩ := ih i' a hget hpa
        refine ⟨j + 1, b, Nat.succ_le_succ hj, hgb, hpb, ?_, ?_⟩
        · intro k c hk hgc
          cases k with
          | zero =>
            simp only [List.get?] at hgc
            cases hgc
            exact hx
          | succ k' => exact hfirst k' c (Nat.lt_of_succ_lt_succ hk) hgc
        · simp [List.find?_cons, hx, hfind]

theorem dictInsert_mem_key (m : List (String × Nat)) (k : String) (v : Nat) :
    ∃ w, (k, w) ∈ dictInsert m k v := by
  unfold dictInsert
  by_cases h : m.any (fun p => decide (p.1 = k)) = true
  · rw [if_pos h]
    obtain ⟨p, hp, hpk⟩ := List.any_eq_true.mp h
    have hpk' : p.1 = k := of_decide_eq_true hpk
    refine ⟨v, ?_⟩
    have hmm := List.mem_map_of_mem (fun q : String × Nat => if q.1 = k then (k, v) else q) hp
    simpa [hpk'] using hmm
  · rw [if_neg h]
    exact ⟨v, List.mem_append_right _ (List.mem_singleton.mpr rfl)⟩

theorem dictInsert_preserves_key (m : List (String × Nat)) (k : String) (v : Nat)
    (k' : String) (h : ∃ w, (k', w) ∈ m) : ∃ w, (k', w) ∈ dictInsert m k v := by
  obtain ⟨w, hw⟩ := h
  unfold dictInsert
  by_cases hany : m.any (fun p => decide (p.1 = k)) = true
  · rw [if_pos hany]
    by_cases hk : k' = k
    · subst hk
      refine ⟨v, ?_⟩
      have hmm := List.mem_map_of_mem (fun q : String × Nat => if q.1 = k' then (k', v) else q) hw
      simpa using hmm
    · refine ⟨w, ?_⟩
      have hmm := List.mem_map_of_mem (fun q : String × Nat => if q.1 = k then (k, v) else q) hw
      simpa [hk] using hmm
  · rw [if_neg hany]
    exact ⟨w, List.mem_append_left _ hw⟩

theorem buildHeaderMapAux_preserves (l : List String) :
    ∀ (i : Nat) (m : List (String × Nat)) (k : String),
      (∃ w, (k, w) ∈ m) → ∃ w, (k, w) ∈ buildHeaderMapAux i l m := by
  induction l with
  | nil => intro i m k h; simpa [buildHeaderMapAux] using h
  | cons x xs ih =>
    intro i m k h
    simp only [buildHeaderMapAux]
    exact ih (i + 1) _ k (dictInsert_preserves_key m (stripLower x) i k h)

theorem buildHeaderMapAux_mem (l : List String) :
    ∀ (i : Nat) (m : List (String × Nat)) (h : String), h ∈ l →
      ∃ w, (stripLower h, w) ∈ buildHeaderMapAux i l m := by
  induction l with
  | nil => intro i m h hmem; simp at hmem
  | cons x xs ih =>
    intro i m h hmem
    simp only [buildHeaderMapAux]
    rcases List.mem_cons.mp hmem with rfl | hmem'
    · exact buildHeaderMapAux_preserves xs (i + 1) _ _ (dictInsert_mem_key m (stripLower h) i)
    · exact ih (i + 1) _ h hmem'

theorem col_idx_isSome (ths : List String) (w : String)
    (h : ∃ x ∈ ths, strContains (stripLower x) (pyLower w) = true) :
    ∃ idx, col_idx (buildHeaderMap ths) w = some idx := by
  obtain ⟨x, hx, hcont⟩ := h
  obtain ⟨v, hv⟩ := buildHeaderMapAux_mem ths 0 [] x hx
  obtain ⟨a, ha, hpa⟩ :=
    find?_of_exists_mem (fun p : String × Nat => strContains p.1 (pyLower w))
      (buildHeaderMap ths) ⟨(stripLower x, v), hv, hcont⟩
  exact ⟨a.2, by simp [col_idx, ha]⟩

theorem qualifies_col (ths : List String) (w : String)
    (h : (ths.map stripLower).any (fun x => strContains x w) = true)
    (hw : pyLower w = w) :
    ∃ idx, col_idx (buildHeaderMap ths) w = some idx := by
  obtain ⟨h', hmem, hcont⟩ := List.any_eq_true.mp h
  obtain ⟨x, hx, rfl⟩ := List.mem_map.mp hmem
  exact col_idx_isSome ths w ⟨x, hx, by rwa [hw]⟩

theorem resolveSchema_of_qualifies (t : HtmlTable) (hq : tableQualifies t = true) :
    ∃ sch, resolveSchema t.headers = some sch := by
  simp only [tableQualifies, wantedHeaders, List.all_cons, List.all_nil, Bool.and_eq_true,
    Bool.and_true] at hq
  obtain ⟨ho, hod, hp, hs⟩ := hq
  obtain ⟨i1, h1⟩ := qualifies_col t.headers "order" ho (by decide)
  obtain ⟨i2, h2⟩ := qualifies_col t.headers "order detail" hod (by decide)
  obtain ⟨i3, h3⟩ := qualifies_col t.headers "product" hp (by decide)
  obtain ⟨i4, h4⟩ := qualifies_col t.headers "status" hs (by decide)
  exact ⟨⟨i1, i2, i3, i4⟩, by simp [resolveSchema, h1, h2, h3, h4]⟩

theorem extractRows_mem (sch : TableSchema) :
    ∀ (rows : List (List String)) (recs : List OrderRecord) (r : OrderRecord),
      extractRows sch rows = Except.ok recs → r ∈ recs →
      ∃ tds ∈ rows, extractRow sch tds = Except.ok (some r) := by
  intro rows
  induction rows with
  | nil =>
    intro recs r h hr
    simp only [extractRows, Except.ok.injEq] at h
    subst h
    simp at hr
  | cons tds rest ih =>
    intro recs r h hr
    simp only [extractRows] at h
    cases hrow : extractRow sch tds with
    | error e => rw [hrow] at h; exact absurd h (by simp)
    | ok o =>
      rw [hrow] at h
      cases o with
      | none =>
        obtain ⟨tds', htds', hrow'⟩ := ih recs r h hr
        exact ⟨tds', List.mem_cons_of_mem _ htds', hrow'⟩
      | some rec0 =>
        cases hrest : extractRows sch rest with
        | error e => rw [hrest] at h; exact absurd h (by simp)
        | ok rs =>
          rw [hrest] at h
          simp only [Except.ok.injEq] at h
          subst h
          rcases List.mem_cons.mp hr with rfl | hmem
          · exact ⟨tds, List.mem_cons_self _ _, hrow⟩
          · obtain ⟨tds', htds', hrow'⟩ := ih rs r hrest hmem
            exact ⟨tds', List.mem_cons_of_mem _ htds', hrow'⟩

theorem extractRow_covered (sch : TableSchema) (tds : List String)
    (hcov : rowCovers sch tds = true) :
    extractRow sch tds =
      Except.ok (if rowStatusNew sch tds then some (mkRecord sch tds) else none) := by
  simp only [rowCovers, Bool.and_eq_true, decide_eq_true_eq] at hcov
  obtain ⟨⟨⟨h1, h2⟩, h3⟩, h4⟩ := hcov
  have hne : tds.isEmpty = false := by
    cases tds with
    | nil => exact absurd h4 (by simp)
    | cons a as => rfl
  have hc1 := List.get?_eq_get h1
  have hc2 := List.get?_eq_get h2
  have hc3 := List.get?_eq_get h3
  have hc4 := List.get?_eq_get h4
  have hd1 : tds.getD sch.idx_order "" = tds.get ⟨sch.idx_order, h1⟩ := by
    rw [List.getD_eq_get?, hc1]; rfl
  have hd2 : tds.getD sch.idx_order_detail "" = tds.get ⟨sch.idx_order_detail, h2⟩ := by
    rw [List.getD_eq_get?, hc2]; rfl
  have hd3 : tds.getD sch.idx_product "" = tds.get ⟨sch.idx_product, h3⟩ := by
    rw [List.getD_eq_get?, hc3]; rfl
  have hd4 : tds.getD sch.idx_status "" = tds.get ⟨sch.idx_status, h4⟩ := by
    rw [List.getD_eq_get?, hc4]; rfl
  simp only [extractRow, extractIds, rowStatusNew, mkRecord, hne, hc1, hc2, hc3, hc4,
    hd1, hd2, hd3, hd4, Bool.false_eq_true, if_false]
  by_cases hst : pyStartsWith (pyLower (pyStrip (tds.get ⟨sch.idx_status, h4⟩))) "new" = true
  · simp only [hst, if_true]
    cases hA : pyFirstToken (tds.get ⟨sch.idx_order, h1⟩) <;>
      cases hB : pyFirstToken (tds.get ⟨sch.idx_order_detail, h2⟩) <;>
        simp [hA, hB]
  · simp only [hst, if_false]
    simp [hst]

theorem extractRow_some_status (sch : TableSchema) (tds : List String) (r : OrderRecord)
    (h : extractRow sch tds = Except.ok (some r)) :
    ∃ cs, tds.get? sch.idx_status = some cs ∧ r.status = pyStrip cs := by
  unfold extractRow at h
  cases he : tds.isEmpty with
  | true => rw [he] at h; simp at h
  | false =>
    rw [he] at h
    simp only [Bool.false_eq_true, if_false] at h
    cases hcs : tds.get? sch.idx_status with
    | none => rw [hcs] at h; exact absurd h (by simp)
    | some cs =>
      simp only [hcs] at h
      by_cases hst : pyStartsWith (pyLower (pyStrip cs)) "new" = true
      · simp only [hst, if_true] at h
        cases hids : extractIds tds sch.idx_order sch.idx_order_detail with
        | error e => simp only [hids] at h; exact absurd h (by simp)
        | ok ids =>
          obtain ⟨oid, odid⟩ := ids
          simp only [hids] at h
          cases hcp : tds.get? sch.idx_product with
          | none => simp only [hcp] at h; exact absurd h (by simp)
          | some cp =>
            simp only [hcp, Except.ok.injEq, Option.some.injEq] at h
            refine ⟨cs, rfl, ?_⟩
            rw [← h]
      · simp only [hst, if_false] at h
        simp at h

/-!
Claim theorems.
-/

/-- C1: whenever some table's header row contains all four required column
names (trimmed, lower-cased, as substrings), `fetch_new_orders` locates a
qualifying table, namely the first one in document order, the schema
resolves a physical index for every logical column, and extraction proceeds
instead of taking the table-not-found exit. -/
theorem c1_first_qualifying_table_selected (tables : List HtmlTable) (i : Nat) (t : HtmlTable)
    (hi : tables.get? i = some t) (hq : tableQualifies t = true) :
    ∃ j t', j ≤ i ∧ tables.get? j = some t' ∧ tableQualifies t' = true ∧
      (∀ k u, k < j → tables.get? k = some u → tableQualifies u = false) ∧
      locateTable tables = some t' ∧
      ∃ sch, resolveSchema t'.headers = some sch ∧
        fetch_new_orders tables = extractRows sch t'.body := by
  obtain ⟨j, t', hj, hg, hq', hfirst, hfind⟩ := find?_first_index tableQualifies tables i t hi hq
  obtain ⟨sch, hsch⟩ := resolveSchema_of_qualifies t' hq'
  refine ⟨j, t', hj, hg, hq', hfirst, hfind, sch, hsch, ?_⟩
  simp [fetch_new_orders, locateTable, hfind, hsch]

/-- Witness for C1 at the spec's concrete scenario page. -/
theorem c1_witness :
    ∃ j t', j ≤ 0 ∧ scenarioPage.get? j = some t' ∧ tableQualifies t' = true ∧
      (∀ k u, k < j → scenarioPage.get? k = some u → tableQualifies u = false) ∧
      locateTable scenarioPage = some t' ∧
      ∃ sch, resolveSchema t'.headers = some sch ∧
        fetch_new_orders scenarioPage = extractRows sch t'.body :=
  c1_first_qualifying_table_selected scenarioPage 0
    ⟨["Order", "Order Detail", "Product", "Status"],
     [["1001 (x)", "2001 (y)", "Widget A", "New"],
      ["1002", "2002", "Widget B", "Complete"]]⟩
    (by rfl) (by decide)

/-- Page whose qualifying table has a non-empty body row that does not cover
the resolved status index. -/
def c2Page : List HtmlTable :=
  [⟨["Order", "Order Detail", "Product", "Status"],
    [["1001"], ["1002", "2002", "Widget B", "New"]]⟩]

/-- C2 counterexample: the one-cell row is not skipped; the status-cell read
raises an uncaught `IndexError` and `fetch_new_orders` propagates it, losing
the well-formed "New" row behind it. -/
theorem c2_counterexample_short_row_raises :
    fetch_new_orders c2Page = Except.error () := by rfl

/-- C2 amended: only rows with an empty cell list are skipped and extraction
continues; a non-empty row whose cells do not cover the status index aborts
the whole extraction with an uncaught index error. -/
theorem c2_amended_empty_skipped_short_raises (sch : TableSchema)
    (rows : List (List String)) (tds : List String)
    (hne : tds.isEmpty = false) (hshort : tds.get? sch.idx_status = none) :
    extractRows sch ([] :: rows) = extractRows sch rows ∧
    extractRows sch (tds :: rows) = Except.error () := by
  have hshort' : tds[sch.idx_status]? = none := by
    rw [← List.get?_eq_getElem?]; exact hshort
  constructor
  · simp [extractRows, extractRow]
  · simp [extractRows, extractRow, hne, hshort, hshort']

/-- Witness for the amended C2. -/
theorem c2_witness :
    extractRows ⟨0, 1, 2, 3⟩ ([] :: [["a", "b", "c", "New"]]) =
      extractRows ⟨0, 1, 2, 3⟩ [["a", "b", "c", "New"]] ∧
    extractRows ⟨0, 1, 2, 3⟩ (["only"] :: [["a", "b", "c", "New"]]) = Except.error () :=
  c2_amended_empty_skipped_short_raises ⟨0, 1, 2, 3⟩ [["a", "b", "c", "New"]] ["only"]
    (by rfl) (by rfl)

/-- Table whose headers make `order` and `order detail` resolve to the same
physical index 0, because `col_idx "order"` substring-matches the key
`"order detail"` first. -/
def c3Table : HtmlTable :=
  ⟨["Order Detail", "Order", "Product", "Status"],
   [["ORD7 x", "D9", "Widget", "New"]]⟩

/-- C3 counterexample: the schema is accepted with `idx_order` and
`idx_order_detail` both 0 — not distinct — and extraction proceeds, emitting
a record whose order and order-detail ids alias the same cell. -/
theorem c3_counterexample_nondistinct_schema_accepted :
    tableQualifies c3Table = true ∧
    resolveSchema c3Table.headers = some ⟨0, 0, 2, 3⟩ ∧
    fetch_new_orders [c3Table] = Except.ok [⟨"ORD7", "ORD7", "Widget", "New"⟩] :=
  ⟨by decide, by rfl, by rfl⟩

/-- C3 amended: a candidate table is accepted by the substring predicate
alone; for the selected table all four lookups necessarily resolve (possibly
to coinciding indices — there is no distinctness check) and extraction
proceeds, so the reject-and-continue-scanning path never runs. -/
theorem c3_amended_located_table_always_accepted (tables : List HtmlTable) (t : HtmlTable)
    (h : locateTable tables = some t) :
    tableQualifies t = true ∧
    ∃ sch, resolveSchema t.headers = some sch ∧
      fetch_new_orders tables = extractRows sch t.body := by
  have h' : tables.find? tableQualifies = some t := h
  have hq : tableQualifies t = true := List.find?_some h'
  obtain ⟨sch, hsch⟩ := resolveSchema_of_qualifies t hq
  exact ⟨hq, sch, hsch, by simp [fetch_new_orders, locateTable, h', hsch]⟩

/-- Witness for the amended C3. -/
theorem c3_witness :
    tableQualifies c3Table = true ∧
    ∃ sch, resolveSchema c3Table.headers = some sch ∧
      fetch_new_orders [c3Table] = extractRows sch c3Table.body :=
  c3_amended_located_table_always_accepted [c3Table] c3Table (by rfl)

/-- C4: over body rows that cover all four resolved indices, a row
contributes a record exactly when its trimmed, lower-cased status cell
starts with "new", and the output is the in-order filter-map of the body
rows — stable, never re-sorted. -/
theorem c4_status_filter_and_order (sch : TableSchema) (rows : List (List String))
    (hcov : ∀ r ∈ rows, rowCovers sch r = true) :
    extractRows sch rows = Except.ok ((rows.filter (rowStatusNew sch)).map (mkRecord sch)) := by
  induction rows with
  | nil => rfl
  | cons tds rest ih =>
    have hc := hcov tds (List.mem_cons_self _ _)
    have ih' := ih (fun r hr => hcov r (List.mem_cons_of_mem _ hr))
    simp only [extractRows, extractRow_covered sch tds hc]
    by_cases hst : rowStatusNew sch tds = true
    · simp [hst, ih', List.filter_cons]
    · simp [hst, ih', List.filter_cons]

/-- Witness for C4 at the scenario table's body. -/
theorem c4_witness :
    extractRows ⟨0, 1, 2, 3⟩
        [["1001 (x)", "2001 (y)", "Widget A", "New"], ["1002", "2002", "Widget B", "Complete"]] =
      Except.ok
        (([["1001 (x)", "2001 (y)", "Widget A", "New"],
           ["1002", "2002", "Widget B", "Complete"]].filter (rowStatusNew ⟨0, 1, 2, 3⟩)).map
          (mkRecord ⟨0, 1, 2, 3⟩)) :=
  c4_status_filter_and_order ⟨0, 1, 2, 3⟩
    [["1001 (x)", "2001 (y)", "Widget A", "New"], ["1002", "2002", "Widget B", "Complete"]]
    (by decide)

/-- C5 counterexample: on the scenario page the output is not the claimed
three-key record list — the emitted dict also carries a `status` key and
spells the detail key `order_detail`. -/
theorem c5_counterexample_three_field_output :
    fetchDicts scenarioPage ≠
      some [[("order", "1001"), ("orderDetail", "2001"), ("product", "Widget A")]] := by
  decide

/-- C5 amended: the scenario output is exactly one record, with the order
and order-detail ids taken as the first whitespace token of their cells, and
the emitted dict has the four keys `order`, `order_detail`, `product`,
`status`. -/
theorem c5_amended_four_field_output :
    fetchDicts scenarioPage =
      some [[("order", "1001"), ("order_detail", "2001"),
             ("product", "Widget A"), ("status", "New")]] := by rfl

/-- Login environment whose URL is on the federated host but whose page does
not show the AAD account-identifier field, so the AAD branch fails soft. -/
def c6Env : LoginEnv :=
  { url := "https://login.microsoftonline.com/common/oauth2",
    aad := ⟨false, Except.ok (), Except.ok (), Except.ok (), Except.ok (),
            Except.ok (), Except.ok ()⟩,
    gen := ⟨true, true, Except.ok (), Except.ok (), true, Except.ok (),
            Except.ok (), Except.ok ()⟩ }

/-- C6 counterexample: the URL contains the federated host substring, the
AAD branch is attempted but reports not handled, and the generic form branch
is then attempted (and even handles the login) — it is not skipped. -/
theorem c6_counterexample_generic_not_skipped :
    strContains c6Env.url "login.microsoftonline.com" = true ∧
    loginDispatch c6Env = Except.ok ⟨true, false, true, true⟩ :=
  ⟨by decide, by rfl⟩

/-- C6 amended: when the URL contains the federated host substring the AAD
branch is attempted, and the generic branch is skipped exactly when the AAD
branch reported having handled the login; at most one strategy reports
handled, and the engine short-circuits on the first handled one. -/
theorem c6_amended_dispatch (env : LoginEnv) (tr : DispatchTrace)
    (hurl : strContains env.url "login.microsoftonline.com" = true)
    (h : loginDispatch env = Except.ok tr) :
    tr.aadAttempted = true ∧
    tr.genAttempted = !tr.aadHandled ∧
    ¬(tr.aadHandled = true ∧ tr.genHandled = true) := by
  unfold loginDispatch at h
  rw [hurl] at h
  cases haad : microsoft_aad_login env.aad with
  | true =>
    rw [haad] at h
    simp only [Bool.true_and, if_true, Except.ok.injEq] at h
    subst h
    exact ⟨rfl, rfl, by simp⟩
  | false =>
    rw [haad] at h
    simp only [Bool.and_false, if_false, Bool.true_and, Bool.false_eq_true] at h
    cases hgen : generic_username_password_login env.gen with
    | error e => rw [hgen] at h; exact absurd h (by simp)
    | ok g =>
      rw [hgen] at h
      simp only [Except.ok.injEq] at h
      subst h
      exact ⟨rfl, rfl, by simp⟩

/-- Login environment where the AAD branch handles the login. -/
def c6WitnessEnv : LoginEnv :=
  { url := "https://login.microsoftonline.com/common",
    aad := ⟨true, Except.ok (), Except.ok (), Except.ok (), Except.ok (),
            Except.ok (), Except.ok ()⟩,
    gen := ⟨true, true, Except.ok (), Except.ok (), true, Except.ok (),
            Except.ok (), Except.ok ()⟩ }

/-- Witness for the amended C6. -/
theorem c6_witness :
    (⟨true, true, false, false⟩ : DispatchTrace).aadAttempted = true ∧
    (⟨true, true, false, false⟩ : DispatchTrace).genAttempted =
      !(⟨true, true, false, false⟩ : DispatchTrace).aadHandled ∧
    ¬((⟨true, true, false, false⟩ : DispatchTrace).aadHandled = true ∧
      (⟨true, true, false, false⟩ : DispatchTrace).genHandled = true) :=
  c6_amended_dispatch c6WitnessEnv ⟨true, true, false, false⟩ (by decide) (by rfl)

/-- C7: when the Duo iframe is detected and the removal predicate never
becomes true inside the wait window (the wait raises `TimeoutError`),
`handle_duo_iframe_if_present` returns normally and the caller proceeds to
the target-page navigation. -/
theorem c7_duo_timeout_nonfatal (env : DuoEnv)
    (hdetect : env.frameWait = Except.ok ())
    (htimeout : env.waitRemoval = Except.error PWError.timeout) :
    handle_duo_iframe_if_present env = Except.ok () ∧
    proceedsToTarget (handle_duo_iframe_if_present env) = Except.ok true := by
  have h : handle_duo_iframe_if_present env = Except.ok () := by
    simp [handle_duo_iframe_if_present, hdetect, htimeout]
  exact ⟨h, by rw [h]; rfl⟩

/-- Duo environment: iframe present, push-button probing partly failing,
removal never observed inside the window. -/
def c7Env : DuoEnv :=
  ⟨Except.ok (),
   some [⟨Except.ok true, Except.error PWError.other⟩, ⟨Except.ok true, Except.ok ()⟩],
   Except.error PWError.timeout⟩

/-- Witness for C7. -/
theorem c7_witness :
    handle_duo_iframe_if_present c7Env = Except.ok () ∧
    proceedsToTarget (handle_duo_iframe_if_present c7Env) = Except.ok true :=
  c7_duo_timeout_nonfatal c7Env (by rfl) (by rfl)

/-- Run in which everything succeeds except that `page.close()` raises. -/
def c8Env : FetchEnv :=
  ⟨Except.ok (), Except.ok [], CloseBehavior.raises,
   CloseBehavior.succeeds, CloseBehavior.succeeds⟩

/-- C8 counterexample: the single `try` around the three closes means a
raising `page.close()` skips `context.close()` and `browser.close()`, so the
context and browser are not released even though the run itself returned
normally. -/
theorem c8_counterexample_close_chain_skipped :
    (fetch_run c8Env).result = Except.ok [] ∧
    (fetch_run c8Env).contextClosed = false ∧
    (fetch_run c8Env).browserClosed = false :=
  ⟨rfl, rfl, rfl⟩

/-- C8 amended: when the login returns the resource triple and no close call
itself raises, the `finally` closes page, context and browser on every exit
path — the parse body returning or raising alike — and never alters the
propagated result. -/
theorem c8_amended_resources_closed (env : FetchEnv)
    (hl : env.login = Except.ok ())
    (hp : env.pageClose = CloseBehavior.succeeds)
    (hc : env.contextClose = CloseBehavior.succeeds)
    (hb : env.browserClose = CloseBehavior.succeeds) :
    (fetch_run env).pageClosed = true ∧ (fetch_run env).contextClosed = true ∧
    (fetch_run env).browserClosed = true ∧ (fetch_run env).result = env.parse := by
  simp [fetch_run, finallyCloses, hl, hp, hc, hb]

/-- Run whose parse body raises but whose closes succeed. -/
def c8WitnessEnv : FetchEnv :=
  ⟨Except.ok (), Except.error PWError.other, CloseBehavior.succeeds,
   CloseBehavior.succeeds, CloseBehavior.succeeds⟩

/-- Witness for the amended C8, on an exceptional exit path. -/
theorem c8_witness :
    (fetch_run c8WitnessEnv).pageClosed = true ∧
    (fetch_run c8WitnessEnv).contextClosed = true ∧
    (fetch_run c8WitnessEnv).browserClosed = true ∧
    (fetch_run c8WitnessEnv).result = c8WitnessEnv.parse :=
  c8_amended_resources_closed c8WitnessEnv rfl rfl rfl rfl

/-- C9: every record emitted by `fetch_new_orders` is a four-key dict —
`order`, `order_detail`, `product` and additionally `status` — whose status
value is the verbatim trimmed status-cell text of its source row. -/
theorem c9_records_carry_status_field (tables : List HtmlTable)
    (recs : List OrderRecord) (r : OrderRecord)
    (h : fetch_new_orders tables = Except.ok recs) (hr : r ∈ recs) :
    (toDict r).map Prod.fst = ["order", "order_detail", "product", "status"] ∧
    ∃ t sch tds cs, locateTable tables = some t ∧ resolveSchema t.headers = some sch ∧
      tds ∈ t.body ∧ tds.get? sch.idx_status = some cs ∧ r.status = pyStrip cs := by
  refine ⟨rfl, ?_⟩
  unfold fetch_new_orders at h
  cases hloc : locateTable tables with
  | none =>
    rw [hloc] at h
    simp only [Except.ok.injEq] at h
    subst h
    simp at hr
  | some t =>
    simp only [hloc] at h
    cases hsch : resolveSchema t.headers with
    | none =>
      simp only [hsch, Except.ok.injEq] at h
      subst h
      simp at hr
    | some sch =>
      simp only [hsch] at h
      obtain ⟨tds, htds, hrow⟩ := extractRows_mem sch t.body recs r h hr
      obtain ⟨cs, hcs, hstat⟩ := extractRow_some_status sch tds r hrow
      exact ⟨t, sch, tds, cs, rfl, hsch, htds, hcs, hstat⟩

/-- Witness for C9 at the scenario page. -/
theorem c9_witness :
    (toDict ⟨"1001", "2001", "Widget A", "New"⟩).map Prod.fst =
      ["order", "order_detail", "product", "status"] ∧
    ∃ t sch tds cs, locateTable scenarioPage = some t ∧
      resolveSchema t.headers = some sch ∧ tds ∈ t.body ∧
      tds.get? sch.idx_status = some cs ∧
      OrderRecord.status ⟨"1001", "2001", "Widget A", "New"⟩ = pyStrip cs :=
  c9_records_carry_status_field scenarioPage [⟨"1001", "2001", "Widget A", "New"⟩]
    ⟨"1001", "2001", "Widget A", "New"⟩ (by rfl) (by simp)

/-- C10: the fall-back from first-token parsing to raw trimmed cell text is
joint — if tokenising either id cell fails, both ids fall back to the raw
trimmed cell text, even when the other cell's token exists. -/
theorem c10_joint_raw_fallback (sch : TableSchema) (tds : List String) (c1 c2 cp cs : String)
    (h1 : tds.get? sch.idx_order = some c1)
    (h2 : tds.get? sch.idx_order_detail = some c2)
    (hp : tds.get? sch.idx_product = some cp)
    (hs : tds.get? sch.idx_status = some cs)
    (hnew : pyStartsWith (pyLower (pyStrip cs)) "new" = true)
    (hfail : pyFirstToken c1 = none ∨ pyFirstToken c2 = none) :
    extractRow sch tds = Except.ok (some ⟨pyStrip c1, pyStrip c2, pyStrip cp, pyStrip cs⟩) := by
  have hne : tds.isEmpty = false := by
    cases tds with
    | nil => simp at hs
    | cons a as => rfl
  have h1' : tds[sch.idx_order]? = some c1 := by rw [← List.get?_eq_getElem?]; exact h1
  have h2' : tds[sch.idx_order_detail]? = some c2 := by rw [← List.get?_eq_getElem?]; exact h2
  have hp' : tds[sch.idx_product]? = some cp := by rw [← List.get?_eq_getElem?]; exact hp
  have hs' : tds[sch.idx_status]? = some cs := by rw [← List.get?_eq_getElem?]; exact hs
  cases hA : pyFirstToken c1 with
  | none => simp [extractRow, extractIds, hne, hs, h1, h2, hp, hs', h1', h2', hp', hnew, hA]
  | some t1 =>
    cases hB : pyFirstToken c2 with
    | none => simp [extractRow, extractIds, hne, hs, h1, h2, hp, hs', h1', h2', hp', hnew, hA, hB]
    | some t2 =>
      rcases hfail with hf | hf
      · rw [hA] at hf; exact absurd hf (by simp)
      · rw [hB] at hf; exact absurd hf (by simp)

/-- Witness for C10: the order cell is whitespace-only, so both ids fall back
raw although the order-detail cell tokenises to "2001". -/
theorem c10_witness :
    extractRow ⟨0, 1, 2, 3⟩ ["", "2001 (y)", "Widget A", "New"] =
      Except.ok (some ⟨pyStrip "", pyStrip "2001 (y)", pyStrip "Widget A", pyStrip "New"⟩) :=
  c10_joint_raw_fallback ⟨0, 1, 2, 3⟩ ["", "2001 (y)", "Widget A", "New"]
    "" "2001 (y)" "Widget A" "New" rfl rfl rfl rfl (by decide) (Or.inl (by decide))
